import Mathlib

/-!
Verification of the duration core of the AezenBot packages repository
(src/packages/utilities/duration/duration.js and formatter.js).

The JavaScript code is shallowly embedded in Lean:
* BigNumber values are modelled as exact rationals (`Rat`); the NaN value is
  modelled by `Option Rat` with `none` standing for NaN.
* `BigNumber.prototype.integerValue(ROUND_FLOOR)` is `Rat.floor`,
  `BigNumber.prototype.modulo` (default mode `ROUND_DOWN`, remainder taking the
  sign of the dividend) is `jsMod`, and decimal string conversion of the
  (always integral) counts is `intDec`.
* Thrown JavaScript errors are modelled by `Except JsError`.  Besides the
  `Invalid duration` error thrown by every formatter entry point, `verbose`
  can hit a `ReferenceError`: on line 81 of formatter.js the zero fallback
  calls `addUnit(0, ...)` as a free identifier, and no module-level binding
  of that name exists (the function is only a class method).
* The regex driven tokenizer of duration.js is modelled by an explicit
  character scanner with exactly the backtracking behaviour of the pattern
  /(-?\d*\.?\d+(?:e[-+]?\d+)?)\s*([a-zμ]*)/gi.

The file constants.js (unit magnitudes, default labels, default separators)
is imported by the two source files but is not part of the sources; those
tables are modelled from the specification and are marked as such.
-/

namespace AezenDuration

/-- Errors thrown by the duration formatter code. -/
inductive JsError where
  | invalidDuration
  | referenceError
deriving DecidableEq

/-- The sixteen canonical unit identifiers (the TimeTypes keys), in the
descending-magnitude order used by kTimeDurations. -/
inductive TimeType where
  | terayear
  | gigayear
  | megayear
  | millennium
  | century
  | decade
  | year
  | month
  | week
  | day
  | hour
  | minute
  | second
  | millisecond
  | microsecond
  | nanosecond
deriving DecidableEq

namespace Time

/-- Modelled from the spec: constants.js (the Time table) is not among the
sources.  Magnitudes are in milliseconds, the base unit used by the
formatter comments; day, hour, minute and second are fixed by the spec,
the month is 29.53059 days (the comment kept in formatter.js), a year is
the fixed average 365.25 days, and decade, century, millennium, megayear,
gigayear and terayear are 10, 100, 1000, 1e6, 1e9 and 1e12 years. -/
def Nanosecond : Rat := 1 / 1000000

/-- Modelled from the spec: one microsecond in milliseconds. -/
def Microsecond : Rat := 1 / 1000

/-- Modelled from the spec: one millisecond, the base unit. -/
def Millisecond : Rat := 1

/-- Modelled from the spec: one second in milliseconds. -/
def Second : Rat := 1000

/-- Modelled from the spec: one minute in milliseconds. -/
def Minute : Rat := 60000

/-- Modelled from the spec: one hour in milliseconds. -/
def Hour : Rat := 3600000

/-- Modelled from the spec: one day in milliseconds. -/
def Day : Rat := 86400000

/-- Modelled from the spec: one week in milliseconds. -/
def Week : Rat := 604800000

/-- Modelled from the spec: one month, 29.53059 days, in milliseconds. -/
def Month : Rat := 2551442976

/-- Modelled from the spec: one year, 365.25 days, in milliseconds. -/
def Year : Rat := 31557600000

/-- Modelled from the spec: ten years in milliseconds. -/
def Decade : Rat := 315576000000

/-- Modelled from the spec: a hundred years in milliseconds. -/
def Century : Rat := 3155760000000

/-- Modelled from the spec: a thousand years in milliseconds. -/
def Millennium : Rat := 31557600000000

/-- Modelled from the spec: a million years in milliseconds. -/
def Megayear : Rat := 31557600000000000

/-- Modelled from the spec: a billion years in milliseconds. -/
def Gigayear : Rat := 31557600000000000000

/-- Modelled from the spec: a trillion years in milliseconds. -/
def Terayear : Rat := 31557600000000000000000

end Time

/-- The kTimeDurations table of formatter.js: every time type paired with its
duration in milliseconds, from largest to smallest. -/
def kTimeDurations : List (TimeType × Rat) :=
  [(TimeType.terayear, Time.Terayear),
   (TimeType.gigayear, Time.Gigayear),
   (TimeType.megayear, Time.Megayear),
   (TimeType.millennium, Time.Millennium),
   (TimeType.century, Time.Century),
   (TimeType.decade, Time.Decade),
   (TimeType.year, Time.Year),
   (TimeType.month, Time.Month),
   (TimeType.week, Time.Week),
   (TimeType.day, Time.Day),
   (TimeType.hour, Time.Hour),
   (TimeType.minute, Time.Minute),
   (TimeType.second, Time.Second),
   (TimeType.millisecond, Time.Millisecond),
   (TimeType.microsecond, Time.Microsecond),
   (TimeType.nanosecond, Time.Nanosecond)]

/-- Character class of the \d regex atom. -/
def isDigit (c : Char) : Bool := decide (c.toNat ≥ 48 ∧ c.toNat ≤ 57)

/-- Character class of the \s regex atom: tab, line feed, vertical tab, form
feed, carriage return, space, no-break space, the Unicode space separators,
the line and paragraph separators and the byte order mark. -/
def isWs (c : Char) : Bool :=
  decide (c = ' ' ∨ c = '\t' ∨ c = '\n' ∨ c = '\r' ∨
    c = Char.ofNat 11 ∨ c = Char.ofNat 12 ∨ c = Char.ofNat 160 ∨
    c = Char.ofNat 5760 ∨ (8192 ≤ c.toNat ∧ c.toNat ≤ 8202) ∨
    c = Char.ofNat 8232 ∨ c = Char.ofNat 8233 ∨ c = Char.ofNat 8239 ∨
    c = Char.ofNat 8287 ∨ c = Char.ofNat 12288 ∨ c = Char.ofNat 65279)

/-- Character class of the unit-alias atom [a-zμ] under the i flag. -/
def isUnitChar (c : Char) : Bool :=
  decide ((97 ≤ c.toNat ∧ c.toNat ≤ 122) ∨ (65 ≤ c.toNat ∧ c.toNat ≤ 90) ∨ c = 'μ')

/-- Character class of the \w regex atom, used by the word boundaries of
/\ban?\b/. -/
def isWordChar (c : Char) : Bool :=
  isDigit c || decide ((97 ≤ c.toNat ∧ c.toNat ≤ 122) ∨ (65 ≤ c.toNat ∧ c.toNat ≤ 90) ∨ c = '_')

/-- String.prototype.toLowerCase restricted to the ASCII letters. -/
def jsToLower (s : List Char) : List Char := s.map Char.toLower

/-- The commaRegex replacement of duration.js: every comma is removed. -/
def removeCommas (s : List Char) : List Char := s.filter (fun c => c ≠ ',')

/-- Whether the first character of the remaining input is a word character
(false at the end of the string), deciding a \b word boundary. -/
def headIsWord (s : List Char) : Bool :=
  match s with
  | [] => false
  | c :: _ => isWordChar c

/-- The aAndAnRegex replacement of duration.js: every standalone word a or an
(case-insensitively, delimited by word boundaries) becomes the digit 1.  The
boolean argument records whether the previous character of the original
string is a word character. -/
def replaceAAnAux : Bool → List Char → List Char
  | _, [] => []
  | prevW, [c] =>
    if (c = 'a' ∨ c = 'A') ∧ prevW = false then ['1'] else [c]
  | prevW, c :: n :: rest2 =>
    if (c = 'a' ∨ c = 'A') ∧ prevW = false then
      if (n = 'n' ∨ n = 'N') ∧ headIsWord rest2 = false then
        '1' :: replaceAAnAux true rest2
      else if isWordChar n = false then
        '1' :: replaceAAnAux true (n :: rest2)
      else
        c :: replaceAAnAux (isWordChar c) (n :: rest2)
    else
      c :: replaceAAnAux (isWordChar c) (n :: rest2)

/-- Entry point of the a/an replacement (position 0 has no previous word
character). -/
def replaceAAn (s : List Char) : List Char := replaceAAnAux false s

/-- Matcher for the mantissa part \d*\.?\d+ of patternRegex, with the
backtracking semantics of the JavaScript engine: greedy digits, then a
decimal point only when at least one digit follows it.  Returns the matched
characters and the rest of the input. -/
def matchBody (l : List Char) : Option (List Char × List Char) :=
  let ds1 := l.takeWhile isDigit
  let r1 := l.dropWhile isDigit
  match r1 with
  | '.' :: c :: r2 =>
    if isDigit c then
      some (ds1 ++ '.' :: (c :: r2).takeWhile isDigit, (c :: r2).dropWhile isDigit)
    else if ds1.isEmpty then none else some (ds1, r1)
  | _ => if ds1.isEmpty then none else some (ds1, r1)

/-- Matcher for the optional exponent group (?:e[-+]?\d+)? of patternRegex:
consumed only when the digits after the optional sign are present. -/
def matchExp (l : List Char) : List Char × List Char :=
  match l with
  | [] => ([], [])
  | e :: rest =>
    if e = 'e' ∨ e = 'E' then
      match rest with
      | [] => ([], l)
      | s :: rest2 =>
        if s = '+' ∨ s = '-' then
          if (rest2.takeWhile isDigit).isEmpty then ([], l)
          else (e :: s :: rest2.takeWhile isDigit, rest2.dropWhile isDigit)
        else
          if (rest.takeWhile isDigit).isEmpty then ([], l)
          else (e :: rest.takeWhile isDigit, rest.dropWhile isDigit)
    else ([], l)

/-- Matcher for the quantity group -?\d*\.?\d+(?:e[-+]?\d+)? at the current
position: a leading minus sign is kept only when a mantissa follows it. -/
def matchNumber (l : List Char) : Option (List Char × List Char) :=
  match l with
  | '-' :: rest =>
    match matchBody rest with
    | some (b, r) => some ('-' :: b ++ (matchExp r).1, (matchExp r).2)
    | none => none
  | _ =>
    match matchBody l with
    | some (b, r) => some (b ++ (matchExp r).1, (matchExp r).2)
    | none => none

/-- Fueled scan of the whole input, reproducing the global left-to-right
search of patternRegex: at each position either a quantity (then optional
whitespace, then a possibly empty alias of letters) is matched and consumed,
or one character is skipped.  Every match consumes at least one character,
so a fuel of one more than the length never runs out. -/
def scanTokensFuel : Nat → List Char → List (List Char × List Char)
  | 0, _ => []
  | _, [] => []
  | fuel + 1, c :: cs =>
    match matchNumber (c :: cs) with
    | none => scanTokensFuel fuel cs
    | some (num, rest1) =>
      (num, (rest1.dropWhile isWs).takeWhile isUnitChar) ::
        scanTokensFuel fuel ((rest1.dropWhile isWs).dropWhile isUnitChar)

/-- All (quantity, alias) matches of patternRegex over the input. -/
def scanTokens (l : List Char) : List (List Char × List Char) :=
  scanTokensFuel (l.length + 1) l

/-- Numeric value of a list of decimal digit characters. -/
def digitsToNat (ds : List Char) : Nat :=
  ds.foldl (fun a c => a * 10 + (c.toNat - 48)) 0

/-- Value of a matched quantity string, as the BigNumber constructor reads
it: optional sign, integer digits, optional fractional digits, optional
decimal exponent.  Exact rational arithmetic, like BigNumber. -/
def parseNum (l : List Char) : Rat :=
  let sgn : Bool := match l with | '-' :: _ => true | _ => false
  let l1 := match l with | '-' :: r => r | _ => l
  let ip := l1.takeWhile isDigit
  let r1 := l1.dropWhile isDigit
  let fp := match r1 with | '.' :: r => r.takeWhile isDigit | _ => []
  let r2 := match r1 with | '.' :: r => r.dropWhile isDigit | _ => r1
  let eSign : Bool := match r2 with
    | e :: '-' :: _ => e = 'e' ∨ e = 'E'
    | _ => false
  let eDigits : List Char := match r2 with
    | e :: '-' :: r => if e = 'e' ∨ e = 'E' then r.takeWhile isDigit else []
    | e :: '+' :: r => if e = 'e' ∨ e = 'E' then r.takeWhile isDigit else []
    | e :: r => if e = 'e' ∨ e = 'E' then r.takeWhile isDigit else []
    | [] => []
  let mant : Rat := (digitsToNat ip : Rat) + (digitsToNat fp : Rat) / (10 : Rat) ^ fp.length
  let emag : Rat :=
    if eSign then 1 / (10 : Rat) ^ digitsToNat eDigits else (10 : Rat) ^ digitsToNat eDigits
  (if sgn then -1 else 1) * mant * emag

/-- The tokens Map of duration.js: every free-text alias with the magnitude
it resolves to. -/
def tokens : List (String × Rat) :=
  [("nanoseconds", Time.Nanosecond),
   ("nanosecond", Time.Nanosecond),
   ("nsecs", Time.Nanosecond),
   ("nsec", Time.Nanosecond),
   ("ns", Time.Nanosecond),
   ("n", Time.Nanosecond),
   ("microseconds", Time.Microsecond),
   ("microsecond", Time.Microsecond),
   ("musecs", Time.Microsecond),
   ("musec", Time.Microsecond),
   ("mus", Time.Microsecond),
   ("mu", Time.Microsecond),
   ("μs", Time.Microsecond),
   ("us", Time.Microsecond),
   ("u", Time.Microsecond),
   ("milliseconds", Time.Millisecond),
   ("millisecond", Time.Millisecond),
   ("msecs", Time.Millisecond),
   ("msec", Time.Millisecond),
   ("ms", Time.Millisecond),
   ("seconds", Time.Second),
   ("second", Time.Second),
   ("secon", Time.Second),
   ("seco", Time.Second),
   ("secs", Time.Second),
   ("sec", Time.Second),
   ("se", Time.Second),
   ("s", Time.Second),
   ("minutes", Time.Minute),
   ("minute", Time.Minute),
   ("minu", Time.Minute),
   ("mins", Time.Minute),
   ("min", Time.Minute),
   ("mi", Time.Minute),
   ("mn", Time.Minute),
   ("m", Time.Minute),
   ("hour", Time.Hour),
   ("hours", Time.Hour),
   ("hrs", Time.Hour),
   ("hr", Time.Hour),
   ("hs", Time.Hour),
   ("h", Time.Hour),
   ("days", Time.Day),
   ("day", Time.Day),
   ("dys", Time.Day),
   ("da", Time.Day),
   ("dy", Time.Day),
   ("ds", Time.Day),
   ("d", Time.Day),
   ("weeks", Time.Week),
   ("week", Time.Week),
   ("wks", Time.Week),
   ("we", Time.Week),
   ("ws", Time.Week),
   ("wk", Time.Week),
   ("w", Time.Week),
   ("months", Time.Month),
   ("month", Time.Month),
   ("mos", Time.Month),
   ("mo", Time.Month),
   ("b", Time.Month),
   ("years", Time.Year),
   ("year", Time.Year),
   ("yrs", Time.Year),
   ("yea", Time.Year),
   ("ye", Time.Year),
   ("yr", Time.Year),
   ("ys", Time.Year),
   ("y", Time.Year),
   ("decades", Time.Decade),
   ("decade", Time.Decade),
   ("decad", Time.Decade),
   ("deca", Time.Decade),
   ("decs", Time.Decade),
   ("dec", Time.Decade),
   ("de", Time.Decade),
   ("centuries", Time.Century),
   ("century", Time.Century),
   ("cents", Time.Century),
   ("cent", Time.Century),
   ("cen", Time.Century),
   ("ce", Time.Century),
   ("c", Time.Century),
   ("millennia", Time.Millennium),
   ("milleniums", Time.Millennium),
   ("millenium", Time.Millennium),
   ("millennias", Time.Millennium),
   ("milly", Time.Millennium),
   ("mill", Time.Millennium),
   ("mil", Time.Millennium),
   ("ml", Time.Millennium),
   ("megayears", Time.Megayear),
   ("megayear", Time.Megayear),
   ("megayea", Time.Megayear),
   ("megayes", Time.Megayear),
   ("megayer", Time.Megayear),
   ("megay", Time.Megayear),
   ("mega", Time.Megayear),
   ("megayrs", Time.Megayear),
   ("megary", Time.Megayear),
   ("myr", Time.Megayear),
   ("gigayears", Time.Gigayear),
   ("gigayear", Time.Gigayear),
   ("gigayea", Time.Gigayear),
   ("gigayes", Time.Gigayear),
   ("gigayer", Time.Gigayear),
   ("gigay", Time.Gigayear),
   ("gyr", Time.Gigayear),
   ("gigary", Time.Gigayear),
   ("gy", Time.Gigayear),
   ("terayears", Time.Terayear),
   ("terayear", Time.Terayear),
   ("terayea", Time.Terayear),
   ("terayer", Time.Terayear),
   ("terayes", Time.Terayear),
   ("teray", Time.Terayear),
   ("tera", Time.Terayear),
   ("teryrs", Time.Terayear),
   ("teryr", Time.Terayear),
   ("tery", Time.Terayear),
   ("tyr", Time.Terayear),
   ("ty", Time.Terayear)]

/-- Exact-match alias lookup, the tokens.get call of calculateOffset. -/
def lookupAlias (u : List Char) : Option Rat :=
  (tokens.find? (fun p => p.1.data = u)).map (fun p => p.2)

/-- All regex matches that calculateOffset iterates over, after the comma
removal and the a/an substitution. -/
def tokensOf (pattern : List Char) : List (List Char × List Char) :=
  scanTokens (replaceAAn (removeCommas pattern))

/-- Body of the patternRegex replacement callback of calculateOffset: when
the alias of the match resolves, add quantity times magnitude to the running
total and set the valid flag; otherwise leave the state unchanged. -/
def offsetStep (acc : Rat × Bool) (t : List Char × List Char) : Rat × Bool :=
  match lookupAlias t.2 with
  | some mag => (acc.1 + parseNum t.1 * mag, true)
  | none => acc

/-- Duration.prototype.calculateOffset: fold every match into the running
total, remembering whether any alias resolved; the NaN sentinel (none) is
returned when no match ever resolved. -/
def calculateOffset (pattern : List Char) : Option Rat :=
  if (List.foldl offsetStep ((0 : Rat), false) (tokensOf pattern)).2 then
    some (List.foldl offsetStep ((0 : Rat), false) (tokensOf pattern)).1
  else none

/-- The Duration constructor: the pattern is lower-cased and handed to
calculateOffset; the result is the ms field of the new Duration. -/
def parse (s : String) : Option Rat := calculateOffset (jsToLower s.data)

/-- Truncation toward zero, the integer division used by the default
BigNumber modulo mode (ROUND_DOWN). -/
def ratTrunc (q : Rat) : Int :=
  if q < 0 then -Rat.floor (-q) else Rat.floor q

/-- BigNumber.prototype.modulo with the default MODULO_MODE: the remainder
of truncated division, taking the sign of the dividend. -/
def jsMod (a b : Rat) : Rat := a - b * (ratTrunc (a / b) : Rat)

/-- Decimal digit characters of a natural number, most significant first
(fueled; the fuel n + 1 always suffices). -/
def natDecAux : Nat → Nat → List Char
  | 0, _ => []
  | fuel + 1, n =>
    if n < 10 then [Nat.digitChar n]
    else natDecAux fuel (n / 10) ++ [Nat.digitChar (n % 10)]

/-- Decimal string of a natural number. -/
def natDec (n : Nat) : String := String.mk (natDecAux (n + 1) n)

/-- Decimal string of an integer, as BigNumber.prototype.toString renders
the integral counts of the formatter. -/
def intDec (n : Int) : String :=
  if n < 0 then "-" ++ natDec (-n).toNat else natDec n.toNat

/-- Comma insertion on a reversed digit list: after every third digit a
comma is placed when more digits remain. -/
def groupRev : List Char → Nat → List Char
  | [], _ => []
  | c :: cs, k =>
    if k = 2 then
      c :: (if cs.isEmpty then [] else ',' :: groupRev cs 0)
    else
      c :: groupRev cs (k + 1)

/-- Thousands grouping of a digit run, the effect of the
replace(/\B(?=(\d\x7b3\x7d)+(?!\d))/g, comma) call of addUnit on an integer
string. -/
def groupCore (ds : List Char) : List Char := (groupRev ds.reverse 0).reverse

/-- Thousands grouping of a decimal integer string, keeping a leading
minus sign. -/
def groupThousands (s : String) : String :=
  if s.data.headD ' ' = '-' then String.mk ('-' :: groupCore s.data.tail)
  else String.mk (groupCore s.data)

/-- Label descriptor of one canonical unit: a default textual form, a
compact abbreviated form, and optional per-exact-count overrides. -/
structure UnitAsset where
  DEFAULT : String
  COMPACT : String
  override : Int → Option String

/-- Builder for the default English label descriptors: the default form is
the plural, the count 1 carries the singular override. -/
def mkAsset (plural sing comp : String) : UnitAsset :=
  { DEFAULT := plural, COMPACT := comp,
    override := fun c => if c = 1 then some sing else none }

/-- Modelled from the spec: constants.js (DEFAULT_UNITS, the built-in
English label table) is not among the sources.  Each unit gets a plural
default label, a singular override for the exact count 1, and a compact
abbreviated label, as described in the data model section of the spec. -/
def DEFAULT_UNITS : TimeType → UnitAsset
  | TimeType.terayear => mkAsset "terayears" "terayear" "Tyr"
  | TimeType.gigayear => mkAsset "gigayears" "gigayear" "Gyr"
  | TimeType.megayear => mkAsset "megayears" "megayear" "Myr"
  | TimeType.millennium => mkAsset "millennia" "millennium" "mil"
  | TimeType.century => mkAsset "centuries" "century" "cent"
  | TimeType.decade => mkAsset "decades" "decade" "dec"
  | TimeType.year => mkAsset "years" "year" "y"
  | TimeType.month => mkAsset "months" "month" "mo"
  | TimeType.week => mkAsset "weeks" "week" "w"
  | TimeType.day => mkAsset "days" "day" "d"
  | TimeType.hour => mkAsset "hours" "hour" "h"
  | TimeType.minute => mkAsset "minutes" "minute" "m"
  | TimeType.second => mkAsset "seconds" "second" "s"
  | TimeType.millisecond => mkAsset "milliseconds" "millisecond" "ms"
  | TimeType.microsecond => mkAsset "microseconds" "microsecond" "μs"
  | TimeType.nanosecond => mkAsset "nanoseconds" "nanosecond" "ns"

/-- DurationFormatter.prototype.addUnit: format the count with thousands
separators; in compact mode append the compact label and the separator
(empty for a non-positive count), otherwise place the separator between the
count and the label, preferring an exact-count override label. -/
def addUnit (time : Int) (unit : UnitAsset) (separator : String) (compactFlag : Bool) : String :=
  let formattedTime := groupThousands (intDec time)
  if compactFlag then
    if 0 < time then formattedTime ++ unit.COMPACT ++ separator else ""
  else
    match unit.override time with
    | some s => formattedTime ++ separator ++ s
    | none => formattedTime ++ separator ++ unit.DEFAULT

/-- Array.prototype.join with a separator string. -/
def joinSep (sep : String) : List String → String
  | [] => ""
  | [x] => x
  | x :: y :: xs => x ++ sep ++ joinSep sep (y :: xs)

/-- The joinWithConjunction helper of formatter.js: one element or none is
joined plainly; otherwise all but the last element are joined with a comma,
the last is attached with the word and, and the separator is appended. -/
def joinWithConjunction (out : List String) (separator : String) : String :=
  match out with
  | [] => joinSep separator []
  | [x] => joinSep separator [x]
  | _ :: _ :: _ =>
    joinSep ", " out.dropLast ++ " and " ++ out.getLastD "" ++ separator

/-- The padWithZero helper of formatter.js: the decimal string of the
number, left-padded with zeros to length at least two. -/
def padWithZero (n : Int) : String :=
  let s := intDec n
  if s.length < 2 then String.mk (List.replicate (2 - s.length) '0') ++ s else s

/-- The shared largest-unit-first remainder walk of the verbose, elegant and
compact loops: walk the unit table, skip a unit while the quotient is below
one, otherwise emit the floored quotient and subtract; with a numeric
precision the walk stops once as many entries have been emitted.  Returns
the emitted (unit, count) entries and the final remainder. -/
def decomposeAux : List (TimeType × Rat) → Rat → Option Nat →
    List ((TimeType × Rat) × Int) × Rat
  | [], d, _ => ([], d)
  | u :: rest, d, prec =>
    if d / u.2 < 1 then decomposeAux rest d prec
    else
      match prec with
      | some p =>
        if p ≤ 1 then
          ([(u, Rat.floor (d / u.2))], d - (Rat.floor (d / u.2) : Rat) * u.2)
        else
          ((u, Rat.floor (d / u.2)) ::
              (decomposeAux rest (d - (Rat.floor (d / u.2) : Rat) * u.2) (some (p - 1))).1,
            (decomposeAux rest (d - (Rat.floor (d / u.2) : Rat) * u.2) (some (p - 1))).2)
      | none =>
        ((u, Rat.floor (d / u.2)) ::
            (decomposeAux rest (d - (Rat.floor (d / u.2) : Rat) * u.2) none).1,
          (decomposeAux rest (d - (Rat.floor (d / u.2) : Rat) * u.2) none).2)

/-- The loop of DurationFormatter.prototype.verbose (also the identical loop
of elegant): push a formatted entry per emitted unit and break once the
output reaches the precision. -/
def formatLoop (units : TimeType → UnitAsset) (lsep : String) (prec : Nat) :
    List (TimeType × Rat) → Rat → List String → List String
  | [], _, out => out
  | u :: rest, d, out =>
    if d / u.2 < 1 then formatLoop units lsep prec rest d out
    else
      if prec ≤ (out ++ [addUnit (Rat.floor (d / u.2)) (units u.1) lsep false]).length then
        out ++ [addUnit (Rat.floor (d / u.2)) (units u.1) lsep false]
      else
        formatLoop units lsep prec rest (d - (Rat.floor (d / u.2) : Rat) * u.2)
          (out ++ [addUnit (Rat.floor (d / u.2)) (units u.1) lsep false])

/-- The loop of DurationFormatter.prototype.compact: like the verbose loop
but with compact entries and without any precision break. -/
def compactLoop (units : TimeType → UnitAsset) (sep : String) :
    List (TimeType × Rat) → Rat → List String → List String
  | [], _, out => out
  | u :: rest, d, out =>
    if d / u.2 < 1 then compactLoop units sep rest d out
    else
      compactLoop units sep rest (d - (Rat.floor (d / u.2) : Rat) * u.2)
        (out ++ [addUnit (Rat.floor (d / u.2)) (units u.1) sep true])

/-- DurationFormatter.prototype.verbose.  The line duration.abs() discards
its result (BigNumber values are immutable), so the loop keeps working on
the original, possibly negative, duration; when the joined output is empty
the zero fallback evaluates the free identifier addUnit, which has no
module-level binding, and a ReferenceError is thrown. -/
def verbose (units : TimeType → UnitAsset) (d? : Option Rat) (prec : Nat)
    (lsep rsep : String) : Except JsError String :=
  match d? with
  | none => Except.error JsError.invalidDuration
  | some d =>
    if joinSep rsep (formatLoop units lsep prec kTimeDurations d []) = "" then
      Except.error JsError.referenceError
    else
      Except.ok ((if d < 0 then "-" else "") ++
        joinSep rsep (formatLoop units lsep prec kTimeDurations d []))

/-- DurationFormatter.prototype.elegant: the verbose loop over the absolute
value, joined with joinWithConjunction and prefixed with a minus sign for a
negative duration. -/
def elegant (units : TimeType → UnitAsset) (d? : Option Rat) (prec : Nat)
    (lsep rsep : String) : Except JsError String :=
  match d? with
  | none => Except.error JsError.invalidDuration
  | some d =>
    Except.ok ((if d < 0 then "-" else "") ++
      joinWithConjunction
        (formatLoop units lsep prec kTimeDurations (if d < 0 then |d| else d) []) rsep)

/-- DurationFormatter.prototype.compact: the compact loop over the absolute
value; a non-empty output list is joined with the separator and prefixed
with a minus sign for a negative duration, an empty one renders as 0. -/
def compact (units : TimeType → UnitAsset) (d? : Option Rat) (sep : String) :
    Except JsError String :=
  match d? with
  | none => Except.error JsError.invalidDuration
  | some d =>
    if 0 < (compactLoop units sep kTimeDurations (if d < 0 then |d| else d) []).length then
      Except.ok ((if d < 0 then "-" else "") ++
        joinSep sep (compactLoop units sep kTimeDurations (if d < 0 then |d| else d) []))
    else
      Except.ok "0"

/-- DurationFormatter.prototype.colon: hours, minutes and seconds by
successive floored division and modulo, each zero-padded. -/
def colon (d? : Option Rat) : Except JsError String :=
  match d? with
  | none => Except.error JsError.invalidDuration
  | some d =>
    Except.ok
      (padWithZero (Rat.floor (d / Time.Hour)) ++ ":" ++
        padWithZero (Rat.floor (jsMod d Time.Hour / Time.Minute)) ++ ":" ++
        padWithZero (Rat.floor (jsMod (jsMod d Time.Hour) Time.Minute / Time.Second)))

/-- DurationFormatter.prototype.binary: the duration in whole seconds,
rendered in base two. -/
def binary (d? : Option Rat) : Except JsError String :=
  match d? with
  | none => Except.error JsError.invalidDuration
  | some d =>
    Except.ok
      (if Rat.floor (d / Time.Second) < 0 then
        "-" ++ String.mk (Nat.toDigits 2 (-Rat.floor (d / Time.Second)).toNat)
      else
        String.mk (Nat.toDigits 2 (Rat.floor (d / Time.Second)).toNat))

/-- Largest power of p dividing n, together with the cofactor (fueled). -/
def stripFactor (p : Nat) : Nat → Nat → Nat × Nat
  | 0, n => (0, n)
  | fuel + 1, n =>
    if 2 ≤ p ∧ n ≠ 0 ∧ n % p = 0 then
      ((stripFactor p fuel (n / p)).1 + 1, (stripFactor p fuel (n / p)).2)
    else
      (0, n)

/-- BigNumber.prototype.toExponential without arguments, for values with a
finite decimal expansion (every value a BigNumber can hold): one leading
digit, the remaining significant digits after a point, and a signed decimal
exponent. -/
def toExponential (d : Rat) : String :=
  if d = 0 then "0e+0" else
  let num := |d|.num.toNat
  let den := |d|.den
  let k2 := (stripFactor 2 den den).1
  let k5 := (stripFactor 5 (stripFactor 2 den den).2 (stripFactor 2 den den).2).1
  let k := max k2 k5
  let M := num * 10 ^ k / den
  let t := (stripFactor 10 M M).1
  let M2 := (stripFactor 10 M M).2
  let digits := natDecAux (M2 + 1) M2
  let E : Int := (digits.length : Int) - 1 + (t : Int) - (k : Int)
  (if d < 0 then "-" else "") ++
    String.mk (digits.take 1) ++
    (if digits.length ≤ 1 then "" else "." ++ String.mk (digits.drop 1)) ++
    "e" ++ (if E < 0 then "-" else "+") ++ natDec E.natAbs

/-- DurationFormatter.prototype.scientific. -/
def scientific (d? : Option Rat) : Except JsError String :=
  match d? with
  | none => Except.error JsError.invalidDuration
  | some d => Except.ok (toExponential d)

/-- The modulo cascade of DurationFormatter.prototype.object: for every
unit of the table, in order, the floored quotient of the running remainder,
which is then reduced modulo the unit. -/
def objectAux : List (TimeType × Rat) → Rat → List (TimeType × Int)
  | [], _ => []
  | u :: rest, d => (u.1, Rat.floor (d / u.2)) :: objectAux rest (jsMod d u.2)

/-- DurationFormatter.prototype.object: the full cascade over all sixteen
canonical units, as an ordered key-value list. -/
def object (d? : Option Rat) : Except JsError (List (TimeType × Int)) :=
  match d? with
  | none => Except.error JsError.invalidDuration
  | some d => Except.ok (objectAux kTimeDurations d)

/-- Remainder left after the full modulo cascade of object. -/
def cascadeRem (table : List (TimeType × Rat)) (d : Rat) : Rat :=
  table.foldl (fun a u => jsMod a u.2) d

/-- Refinement-side definition, following the wording of the colon claim:
hours are the floored quotient of the magnitude by the hour magnitude. -/
def specColonHours (d : Rat) : Int := Rat.floor (d / Time.Hour)

/-- Refinement-side definition, following the wording of the colon claim:
the magnitude reduced modulo the hour magnitude. -/
def specColonHourRem (d : Rat) : Rat := d - Time.Hour * (specColonHours d : Rat)

/-- Refinement-side definition, following the wording of the colon claim:
minutes are the floored quotient of the hour remainder by the minute
magnitude. -/
def specColonMinutes (d : Rat) : Int := Rat.floor (specColonHourRem d / Time.Minute)

/-- Refinement-side definition, following the wording of the colon claim:
the hour remainder reduced modulo the minute magnitude. -/
def specColonMinRem (d : Rat) : Rat :=
  specColonHourRem d - Time.Minute * (specColonMinutes d : Rat)

/-- Refinement-side definition, following the wording of the colon claim:
seconds are the floored quotient of the minute remainder by the second
magnitude. -/
def specColonSeconds (d : Rat) : Int := Rat.floor (specColonMinRem d / Time.Second)

/-- Contribution of a single match to the total, following the wording of
the parse claim: quantity times magnitude when the alias resolves, zero
otherwise. -/
def contrib (t : List Char × List Char) : Rat :=
  match lookupAlias t.2 with
  | some mag => parseNum t.1 * mag
  | none => 0

/-- Sum of quantity times magnitude over every match whose alias resolves in
the unit table, following the wording of the parse claim. -/
def resolvedSum (pattern : List Char) : Rat := ((tokensOf pattern).map contrib).sum

/-- The formatted entries that the verbose (and elegant) loop emits for a
non-negative duration: one addUnit string per decomposition entry, capped by
the precision. -/
def verboseEntries (units : TimeType → UnitAsset) (d : Rat) (prec : Nat)
    (lsep : String) : List String :=
  (decomposeAux kTimeDurations d (some prec)).1.map
    (fun e => addUnit e.2 (units e.1.1) lsep false)

end AezenDuration

deriving instance DecidableEq for Except

unseal Rat.add Rat.mul Rat.sub Rat.inv Rat.ofScientific

namespace AezenDuration

theorem kTimeDurations_pos : ∀ u ∈ kTimeDurations, 0 < u.2 := by decide

theorem kTimeDurations_sorted :
    List.Pairwise (fun a b : TimeType × Rat => b.2 < a.2) kTimeDurations := by decide

theorem ratTrunc_eq_floor {q : Rat} (h : 0 ≤ q) : ratTrunc q = Rat.floor q := by
  simp [ratTrunc, not_lt.mpr h]

theorem rat_floor_cast_le (q : Rat) : (Rat.floor q : Rat) ≤ q := Rat.le_floor.mp le_rfl

theorem jsMod_eq {a b : Rat} (ha : 0 ≤ a) (hb : 0 < b) :
    jsMod a b = a - b * (Rat.floor (a / b) : Rat) := by
  have : 0 ≤ a / b := div_nonneg ha (le_of_lt hb)
  simp [jsMod, ratTrunc_eq_floor this]

theorem jsMod_nonneg {a b : Rat} (ha : 0 ≤ a) (hb : 0 < b) : 0 ≤ jsMod a b := by
  rw [jsMod_eq ha hb]
  have h1 : (Rat.floor (a / b) : Rat) ≤ a / b := rat_floor_cast_le _
  have h2 : (Rat.floor (a / b) : Rat) * b ≤ a := (le_div_iff₀ hb).mp h1
  nlinarith

theorem decomposeAux_invariant :
    ∀ (table : List (TimeType × Rat)) (d : Rat) (prec : Option Nat),
      (∀ u ∈ table, 0 < u.2) → 0 ≤ d →
      (∀ e ∈ (decomposeAux table d prec).1, 1 ≤ e.2) ∧
      0 ≤ (decomposeAux table d prec).2 ∧
      ((decomposeAux table d prec).1.map (fun e => (e.2 : Rat) * e.1.2)).sum +
        (decomposeAux table d prec).2 = d ∧
      List.Sublist ((decomposeAux table d prec).1.map Prod.fst) table := by
  intro table
  induction table with
  | nil =>
    intro d prec _ hd
    refine ⟨by simp [decomposeAux], by simpa [decomposeAux] using hd, by simp [decomposeAux], ?_⟩
    simp [decomposeAux]
  | cons u rest ih =>
    intro d prec hpos hd
    have hu : 0 < u.2 := hpos u (List.mem_cons_self u rest)
    have hrest : ∀ v ∈ rest, 0 < v.2 := fun v hv => hpos v (List.mem_cons_of_mem u hv)
    by_cases h : d / u.2 < 1
    · have hmain := ih d prec hrest hd
      simp only [decomposeAux, if_pos h]
      exact ⟨hmain.1, hmain.2.1, hmain.2.2.1, List.Sublist.cons u hmain.2.2.2⟩
    · have h1 : (1 : Rat) ≤ d / u.2 := le_of_not_lt h
      have hc1 : (1 : Int) ≤ Rat.floor (d / u.2) := by
        rw [Rat.le_floor]
        exact_mod_cast h1
      have hcle : (Rat.floor (d / u.2) : Rat) ≤ d / u.2 := rat_floor_cast_le _
      have hcd : (Rat.floor (d / u.2) : Rat) * u.2 ≤ d := (le_div_iff₀ hu).mp hcle
      have hd2 : 0 ≤ d - (Rat.floor (d / u.2) : Rat) * u.2 := by linarith
      match prec with
      | none =>
        have hmain := ih (d - (Rat.floor (d / u.2) : Rat) * u.2) none hrest hd2
        simp only [decomposeAux, if_neg h]
        refine ⟨?_, hmain.2.1, ?_, ?_⟩
        · intro e he
          rcases List.mem_cons.mp he with h1 | h2
          · rw [h1]; exact hc1
          · exact hmain.1 e h2
        · simp only [List.map_cons, List.sum_cons]
          have := hmain.2.2.1
          linarith
        · exact List.Sublist.cons₂ u hmain.2.2.2
      | some p =>
        by_cases hp : p ≤ 1
        · simp only [decomposeAux, if_neg h, if_pos hp]
          refine ⟨?_, hd2, by simp, ?_⟩
          · intro e he
            rcases List.mem_singleton.mp he with h1
            rw [h1]; exact hc1
          · simp only [List.map_cons, List.map_nil]
            exact List.Sublist.cons₂ u (List.nil_sublist rest)
        · have hmain := ih (d - (Rat.floor (d / u.2) : Rat) * u.2) (some (p - 1)) hrest hd2
          simp only [decomposeAux, if_neg h, if_neg hp]
          refine ⟨?_, hmain.2.1, ?_, ?_⟩
          · intro e he
            rcases List.mem_cons.mp he with h1 | h2
            · rw [h1]; exact hc1
            · exact hmain.1 e h2
          · simp only [List.map_cons, List.sum_cons]
            have := hmain.2.2.1
            linarith
          · exact List.Sublist.cons₂ u hmain.2.2.2

theorem formatLoop_eq :
    ∀ (table : List (TimeType × Rat)) (units : TimeType → UnitAsset) (lsep : String)
      (prec : Nat) (d : Rat) (out : List String),
      formatLoop units lsep prec table d out =
        out ++ (decomposeAux table d (some (prec - out.length))).1.map
          (fun e => addUnit e.2 (units e.1.1) lsep false) := by
  intro table units lsep prec
  induction table with
  | nil => intro d out; simp [formatLoop, decomposeAux]
  | cons u rest ih =>
    intro d out
    by_cases h : d / u.2 < 1
    · simp only [formatLoop, decomposeAux, if_pos h]
      exact ih d out
    · by_cases hp : prec ≤ (out ++ [addUnit (Rat.floor (d / u.2)) (units u.1) lsep false]).length
      · have hp1 : prec - out.length ≤ 1 := by
          simp only [List.length_append, List.length_singleton] at hp
          omega
        simp only [formatLoop, decomposeAux, if_neg h, if_pos hp, if_pos hp1]
        simp
      · have hp1 : ¬(prec - out.length ≤ 1) := by
          simp only [List.length_append, List.length_singleton] at hp
          omega
        simp only [formatLoop, decomposeAux, if_neg h, if_neg hp, if_neg hp1]
        rw [ih]
        have hlen : prec - (out ++ [addUnit (Rat.floor (d / u.2)) (units u.1) lsep false]).length
            = prec - out.length - 1 := by
          simp only [List.length_append, List.length_singleton]
          omega
        rw [hlen]
        simp

theorem compactLoop_eq :
    ∀ (table : List (TimeType × Rat)) (units : TimeType → UnitAsset) (sep : String)
      (d : Rat) (out : List String),
      compactLoop units sep table d out =
        out ++ (decomposeAux table d none).1.map
          (fun e => addUnit e.2 (units e.1.1) sep true) := by
  intro table units sep
  induction table with
  | nil => intro d out; simp [compactLoop, decomposeAux]
  | cons u rest ih =>
    intro d out
    by_cases h : d / u.2 < 1
    · simp only [compactLoop, decomposeAux, if_pos h]
      exact ih d out
    · simp only [compactLoop, decomposeAux, if_neg h]
      rw [ih]
      simp

theorem natDecAux_ne_nil (fuel n : Nat) : natDecAux (fuel + 1) n ≠ [] := by
  simp only [natDecAux]
  by_cases h : n < 10
  · simp [h]
  · simp [h]

theorem natDec_ne_empty (n : Nat) : natDec n ≠ "" := by
  intro h
  have := congrArg String.data h
  simp only [natDec] at this
  exact natDecAux_ne_nil n n (by simpa using this)

theorem string_eq_empty_of_data : ∀ (a : String), a.data = [] → a = ""
  | ⟨[]⟩, _ => rfl
  | ⟨_ :: _⟩, h => nomatch h

theorem string_append_ne_empty_left {a : String} (b : String) (ha : a ≠ "") :
    a ++ b ≠ "" := by
  intro h
  have hd := congrArg String.data h
  simp only [String.data_append] at hd
  rcases List.append_eq_nil.mp (by simpa using hd) with ⟨h1, _⟩
  exact ha (string_eq_empty_of_data a h1)

theorem groupRev_ne_nil : ∀ (l : List Char) (k : Nat), l ≠ [] → groupRev l k ≠ [] := by
  intro l k hl
  match l with
  | [] => exact absurd rfl hl
  | c :: cs =>
    simp only [groupRev]
    split <;> exact List.cons_ne_nil _ _

theorem groupCore_ne_nil (ds : List Char) (hds : ds ≠ []) : groupCore ds ≠ [] := by
  simp only [groupCore]
  intro hgc
  rw [List.reverse_eq_nil_iff] at hgc
  exact groupRev_ne_nil ds.reverse 0 (by simpa using hds) hgc

theorem groupThousands_ne_empty (s : String) (hs : s.data ≠ []) :
    groupThousands s ≠ "" := by
  unfold groupThousands
  by_cases h : s.data.headD ' ' = '-'
  · rw [if_pos h]
    intro hcon
    have hd := congrArg String.data hcon
    exact List.cons_ne_nil '-' _ hd
  · rw [if_neg h]
    intro hcon
    have hd := congrArg String.data hcon
    exact groupCore_ne_nil s.data hs hd

theorem intDec_data_ne_nil (c : Int) : (intDec c).data ≠ [] := by
  unfold intDec
  by_cases hc : c < 0
  · rw [if_pos hc]
    intro hd
    have hd2 : ("-" : String).data ++ (natDec (-c).toNat).data = [] := by
      rw [← String.data_append]
      exact hd
    rcases List.append_eq_nil.mp hd2 with ⟨h1, _⟩
    exact absurd h1 (show ("-" : String).data ≠ [] by decide)
  · rw [if_neg hc]
    intro hd
    exact natDecAux_ne_nil _ _ (by simpa [natDec] using hd)

theorem addUnit_plain_ne_empty (c : Int) (u : UnitAsset) (sep : String) :
    addUnit c u sep false ≠ "" := by
  have hne : groupThousands (intDec c) ≠ "" :=
    groupThousands_ne_empty _ (intDec_data_ne_nil c)
  unfold addUnit
  rw [if_neg (by simp : ¬(false = true))]
  cases h : u.override c with
  | some s =>
    simp only [h]
    exact string_append_ne_empty_left _ (string_append_ne_empty_left _ hne)
  | none =>
    simp only [h]
    exact string_append_ne_empty_left _ (string_append_ne_empty_left _ hne)

theorem joinSep_cons_ne_empty (sep x : String) (xs : List String) (hx : x ≠ "") :
    joinSep sep (x :: xs) ≠ "" := by
  match xs with
  | [] => simpa [joinSep] using hx
  | y :: ys =>
    simp only [joinSep]
    exact string_append_ne_empty_left _ (string_append_ne_empty_left _ hx)

theorem objectAux_invariant :
    ∀ (table : List (TimeType × Rat)) (d : Rat),
      (∀ u ∈ table, 0 < u.2) → 0 ≤ d →
      (objectAux table d).map Prod.fst = table.map Prod.fst ∧
      (List.zipWith (fun (e : TimeType × Int) (u : TimeType × Rat) => (e.2 : Rat) * u.2)
          (objectAux table d) table).sum + cascadeRem table d = d := by
  intro table
  induction table with
  | nil => intro d _ hd; simp [objectAux, cascadeRem]
  | cons u rest ih =>
    intro d hpos hd
    have hu : 0 < u.2 := hpos u (List.mem_cons_self u rest)
    have hrest : ∀ v ∈ rest, 0 < v.2 := fun v hv => hpos v (List.mem_cons_of_mem u hv)
    have hmod : 0 ≤ jsMod d u.2 := jsMod_nonneg hd hu
    have hmain := ih (jsMod d u.2) hrest hmod
    have hcr : cascadeRem (u :: rest) d = cascadeRem rest (jsMod d u.2) := rfl
    constructor
    · simp [objectAux, hmain.1]
    · simp only [objectAux, List.zipWith_cons_cons, List.sum_cons, hcr]
      have heq := hmain.2
      have hjm : jsMod d u.2 = d - u.2 * (Rat.floor (d / u.2) : Rat) := jsMod_eq hd hu
      have hcomm : (Rat.floor (d / u.2) : Rat) * u.2 = u.2 * (Rat.floor (d / u.2) : Rat) :=
        mul_comm _ _
      linarith [heq, hjm, hcomm]

theorem padWithZero_length (n : Int) : 2 ≤ (padWithZero n).length := by
  unfold padWithZero
  by_cases h : (intDec n).length < 2
  · rw [if_pos h]
    rw [String.length_append]
    have : (String.mk (List.replicate (2 - (intDec n).length) '0')).length
        = 2 - (intDec n).length := by
      show (List.replicate (2 - (intDec n).length) '0').length = 2 - (intDec n).length
      exact List.length_replicate _ _
    omega
  · rw [if_neg h]
    omega

theorem offsetFold_fst :
    ∀ (toks : List (List Char × List Char)) (a : Rat) (v : Bool),
      (List.foldl offsetStep (a, v) toks).1 = a + (toks.map contrib).sum := by
  intro toks
  induction toks with
  | nil => intro a v; simp
  | cons t ts ih =>
    intro a v
    simp only [List.foldl_cons, List.map_cons, List.sum_cons, offsetStep, contrib]
    cases h : lookupAlias t.2 with
    | some mag =>
      simp only [h]
      rw [ih]
      ring
    | none =>
      simp only [h]
      rw [ih]
      ring

theorem offsetFold_snd :
    ∀ (toks : List (List Char × List Char)) (a : Rat) (v : Bool),
      (List.foldl offsetStep (a, v) toks).2 =
        (v || toks.any (fun t => (lookupAlias t.2).isSome)) := by
  intro toks
  induction toks with
  | nil => intro a v; simp
  | cons t ts ih =>
    intro a v
    simp only [List.foldl_cons, List.any_cons, offsetStep]
    cases h : lookupAlias t.2 with
    | some mag =>
      simp only [h]
      rw [ih]
      simp
    | none =>
      simp only [h]
      rw [ih]
      simp

theorem joinWithConjunction_eq (out : List String) (sep : String) :
    joinWithConjunction out sep =
      if out.length ≤ 1 then joinSep sep out
      else joinSep ", " out.dropLast ++ " and " ++ out.getLastD "" ++ sep := by
  match out with
  | [] => simp [joinWithConjunction]
  | [x] => simp [joinWithConjunction]
  | x :: y :: xs =>
    have hlen : ¬((x :: y :: xs).length ≤ 1) := by simp
    rw [if_neg hlen]
    rfl

theorem addUnit_compact_pos (c : Int) (u : UnitAsset) (sep : String) (hc : 0 < c) :
    addUnit c u sep true = groupThousands (intDec c) ++ u.COMPACT ++ sep := by
  simp only [addUnit, if_pos hc]
  simp

/-- C1: every successful parse returns exactly the sum, over all matches
whose alias resolves in the unit table, of the quantity times the magnitude
of that unit, computed with exact arithmetic; in particular parse of the
text 2 days yields twice the day magnitude of 24 times 3600 times 1000
base-unit ticks. -/
theorem c1_parse_total_matches_sum :
    (∀ (s : List Char) (r : Rat), calculateOffset s = some r → r = resolvedSum s) ∧
    parse "2 days" = some (2 * (24 * 3600 * 1000)) := by
  constructor
  · intro s r h
    unfold calculateOffset at h
    by_cases hc : (List.foldl offsetStep ((0 : Rat), false) (tokensOf s)).2 = true
    · rw [if_pos hc] at h
      have := Option.some.inj h
      rw [← this, offsetFold_fst]
      simp [resolvedSum]
    · rw [if_neg hc] at h
      exact absurd h (Option.noConfusion)
  · decide

/-- Witness for C1 at the concrete input 2 days: the parsed total
172800000 equals the resolved-alias sum of the tokenized input. -/
theorem c1_parse_total_matches_sum_witness :
    (172800000 : Rat) = resolvedSum (jsToLower ("2 days".data)) :=
  c1_parse_total_matches_sum.1 (jsToLower ("2 days".data)) 172800000 (by decide)

/-- C2: the parse fails with the InvalidPattern sentinel exactly when no
match has an alias that resolves in the unit table (so an unknown alias is
ignored and never invalidates a parse that resolved another token), and
parse of the text banana fails. -/
theorem c2_invalid_pattern_iff_no_alias :
    (∀ (s : List Char),
      calculateOffset s = none ↔ ∀ t ∈ tokensOf s, lookupAlias t.2 = none) ∧
    parse "banana" = none := by
  constructor
  · intro s
    unfold calculateOffset
    rw [offsetFold_snd]
    simp only [Bool.false_or]
    constructor
    · intro h t ht
      cases hL : lookupAlias t.2 with
      | none => rfl
      | some mag =>
        have hany : (tokensOf s).any (fun t => (lookupAlias t.2).isSome) = true :=
          List.any_eq_true.mpr ⟨t, ht, by simp [hL]⟩
        rw [if_pos hany] at h
        exact Option.noConfusion h
    · intro hall
      have hany : (tokensOf s).any (fun t => (lookupAlias t.2).isSome) = false := by
        rw [List.any_eq_false]
        intro t ht
        simp [hall t ht]
      simp [hany]
  · decide

/-- Witness for C2 at the concrete input banana: every token of the
tokenization has an unresolvable alias, hence the parse returns the
sentinel. -/
theorem c2_invalid_pattern_iff_no_alias_witness :
    calculateOffset (jsToLower ("banana".data)) = none :=
  (c2_invalid_pattern_iff_no_alias.1 (jsToLower ("banana".data))).mpr (by decide)

/-- C3: for every non-negative magnitude and any precision cap, the shared
largest-unit-first decomposition emits only counts of at least one, emits
units of strictly decreasing magnitude, and satisfies that the sum of count
times magnitude over the emitted entries plus the final remainder is the
original magnitude; moreover the verbose/elegant loop and the compact loop
compute exactly the formatted entries of this decomposition. -/
theorem c3_decomposition_invariant :
    ∀ (d : Rat), 0 ≤ d → ∀ (prec : Option Nat),
      (∀ e ∈ (decomposeAux kTimeDurations d prec).1, 1 ≤ e.2) ∧
      List.Pairwise (fun a b => b.1.2 < a.1.2) (decomposeAux kTimeDurations d prec).1 ∧
      ((decomposeAux kTimeDurations d prec).1.map (fun e => (e.2 : Rat) * e.1.2)).sum +
        (decomposeAux kTimeDurations d prec).2 = d ∧
      (∀ (units : TimeType → UnitAsset) (lsep : String) (p : Nat),
        formatLoop units lsep p kTimeDurations d [] =
          (decomposeAux kTimeDurations d (some p)).1.map
            (fun e => addUnit e.2 (units e.1.1) lsep false)) ∧
      (∀ (units : TimeType → UnitAsset) (sep : String),
        compactLoop units sep kTimeDurations d [] =
          (decomposeAux kTimeDurations d none).1.map
            (fun e => addUnit e.2 (units e.1.1) sep true)) := by
  intro d hd prec
  have hinv := decomposeAux_invariant kTimeDurations d prec kTimeDurations_pos hd
  refine ⟨hinv.1, ?_, hinv.2.2.1, ?_, ?_⟩
  · have hpw : List.Pairwise (fun a b : TimeType × Rat => b.2 < a.2)
        ((decomposeAux kTimeDurations d prec).1.map Prod.fst) :=
      List.Pairwise.sublist hinv.2.2.2 kTimeDurations_sorted
    rw [List.pairwise_map] at hpw
    exact hpw
  · intro units lsep p
    have hf := formatLoop_eq kTimeDurations units lsep p d []
    simpa using hf
  · intro units sep
    have hcp := compactLoop_eq kTimeDurations units sep d []
    simpa using hcp

/-- Witness for C3 at the concrete magnitude of one day, one hour, one
minute and one second with no precision cap: the emitted entries sum back
to the original magnitude. -/
theorem c3_decomposition_invariant_witness :
    ((decomposeAux kTimeDurations 90061000 none).1.map
      (fun e => (e.2 : Rat) * e.1.2)).sum +
      (decomposeAux kTimeDurations 90061000 none).2 = 90061000 :=
  (c3_decomposition_invariant 90061000 (by decide) none).2.2.1

/-- C4: every rendering mode given the NaN magnitude fails with the
InvalidDuration error before producing any output. -/
theorem c4_nan_rejected_all_modes :
    verbose DEFAULT_UNITS none 7 " " " " = Except.error JsError.invalidDuration ∧
    elegant DEFAULT_UNITS none 7 " " " " = Except.error JsError.invalidDuration ∧
    compact DEFAULT_UNITS none " " = Except.error JsError.invalidDuration ∧
    colon none = Except.error JsError.invalidDuration ∧
    scientific none = Except.error JsError.invalidDuration ∧
    binary none = Except.error JsError.invalidDuration ∧
    object none = Except.error JsError.invalidDuration :=
  ⟨rfl, rfl, rfl, rfl, rfl, rfl, rfl⟩

/-- C5: on a negative magnitude the verbose mode does not return the minus
prefixed positive rendering: the call duration.abs() discards its result,
the loop emits nothing, and the zero fallback hits the undefined free
identifier addUnit, so a ReferenceError is thrown; the elegant half of the
claim does hold, as evaluated here at minus one hour. -/
theorem c5_negative_verbose_reference_error :
    verbose DEFAULT_UNITS (some (-3600000)) 7 " " " " =
      Except.error JsError.referenceError ∧
    elegant DEFAULT_UNITS (some 3600000) 7 " " " " = Except.ok "1 hour" ∧
    elegant DEFAULT_UNITS (some (-3600000)) 7 " " " " = Except.ok ("-" ++ "1 hour") :=
  ⟨by decide, by decide, by decide⟩

/-- C6: rendering the zero magnitude in verbose mode does not return a
string: the loop emits nothing and the zero fallback evaluates the
undefined free identifier addUnit, so a ReferenceError is thrown. -/
theorem c6_zero_verbose_reference_error :
    verbose DEFAULT_UNITS (some 0) 7 " " " " = Except.error JsError.referenceError := by
  decide

/-- Counterexample to C7 at one hour with the default separator: the single
compact entry already carries a trailing separator, so the output is not
the separator-free single entry the claim describes. -/
theorem c7_compact_trailing_separator :
    compact DEFAULT_UNITS (some 3600000) " " = Except.ok "1h " ∧
    (Except.ok ("1h " : String) : Except JsError String) ≠ Except.ok "1h" :=
  ⟨by decide, by decide⟩

/-- C7 as amended: compact decomposes the absolute value with no precision
cap; each entry is the thousands-separated count immediately followed by
the compact label and one trailing copy of the separator, and the entries,
each already ending in the separator, are additionally joined by the
separator (so consecutive entries are separated by two copies and the
output ends with one); the zero magnitude, and any magnitude smaller than
every unit, renders as the string 0. -/
theorem c7_amended_compact_layout :
    ∀ (d : Rat) (sep : String),
      compact DEFAULT_UNITS (some d) sep =
        Except.ok
          (if ((decomposeAux kTimeDurations (if d < 0 then |d| else d) none).1).isEmpty
            then "0"
            else (if d < 0 then "-" else "") ++
              joinSep sep
                ((decomposeAux kTimeDurations (if d < 0 then |d| else d) none).1.map
                  (fun e =>
                    groupThousands (intDec e.2) ++ (DEFAULT_UNITS e.1.1).COMPACT ++ sep))) := by
  intro d sep
  have ha0 : 0 ≤ (if d < 0 then |d| else d) := by
    by_cases h : d < 0
    · rw [if_pos h]; exact abs_nonneg d
    · rw [if_neg h]; exact not_lt.mp h
  have hcounts :=
    (decomposeAux_invariant kTimeDurations (if d < 0 then |d| else d) none
      kTimeDurations_pos ha0).1
  have hmapeq :
      (decomposeAux kTimeDurations (if d < 0 then |d| else d) none).1.map
          (fun e => addUnit e.2 (DEFAULT_UNITS e.1.1) sep true)
        = (decomposeAux kTimeDurations (if d < 0 then |d| else d) none).1.map
          (fun e =>
            groupThousands (intDec e.2) ++ (DEFAULT_UNITS e.1.1).COMPACT ++ sep) := by
    apply List.map_congr_left
    intro e he
    exact addUnit_compact_pos e.2 (DEFAULT_UNITS e.1.1) sep
      (lt_of_lt_of_le Int.zero_lt_one (hcounts e he))
  simp only [compact]
  rw [compactLoop_eq, List.nil_append, hmapeq]
  by_cases hemp : (decomposeAux kTimeDurations (if d < 0 then |d| else d) none).1 = []
  · rw [hemp]
    simp
  · have hlen : 0 < ((decomposeAux kTimeDurations (if d < 0 then |d| else d) none).1.map
        (fun e =>
          groupThousands (intDec e.2) ++ (DEFAULT_UNITS e.1.1).COMPACT ++ sep)).length := by
      simp [List.length_pos, hemp]
    rw [if_pos hlen]
    simp [List.isEmpty_iff, hemp]

/-- Counterexample to C8 at one hour and one minute with the default
separators: the final entry is followed by the right separator, so the
output is not the trailing-free conjunction join the claim describes. -/
theorem c8_elegant_trailing_separator :
    elegant DEFAULT_UNITS (some 3660000) 7 " " " " = Except.ok "1 hour and 1 minute " ∧
    (Except.ok ("1 hour and 1 minute " : String) : Except JsError String) ≠
      Except.ok "1 hour and 1 minute" :=
  ⟨by decide, by decide⟩

/-- C8 as amended: for a non-negative magnitude, elegant emits exactly the
same formatted entries as the verbose loop (same counts, labels and
precision cap); with at most one entry the result is the plain join,
identical to the verbose rendering, and with two or more entries all but
the last are joined with a comma and a space, the last is attached with the
word and, and one copy of the right separator is appended after it. -/
theorem c8_amended_elegant_join :
    ∀ (d : Rat), 0 ≤ d → ∀ (prec : Nat) (lsep rsep : String),
      (elegant DEFAULT_UNITS (some d) prec lsep rsep =
        Except.ok
          (if (verboseEntries DEFAULT_UNITS d prec lsep).length ≤ 1 then
            joinSep rsep (verboseEntries DEFAULT_UNITS d prec lsep)
          else
            joinSep ", " (verboseEntries DEFAULT_UNITS d prec lsep).dropLast ++ " and " ++
              (verboseEntries DEFAULT_UNITS d prec lsep).getLastD "" ++ rsep)) ∧
      (verboseEntries DEFAULT_UNITS d prec lsep ≠ [] →
        verbose DEFAULT_UNITS (some d) prec lsep rsep =
          Except.ok (joinSep rsep (verboseEntries DEFAULT_UNITS d prec lsep))) := by
  intro d hd prec lsep rsep
  have hneg : ¬(d < 0) := not_lt.mpr hd
  have hloop : formatLoop DEFAULT_UNITS lsep prec kTimeDurations d [] =
      verboseEntries DEFAULT_UNITS d prec lsep := by
    have hf := formatLoop_eq kTimeDurations DEFAULT_UNITS lsep prec d []
    simpa [verboseEntries] using hf
  constructor
  · simp only [elegant]
    rw [if_neg hneg, if_neg hneg, hloop, String.empty_append, joinWithConjunction_eq]
  · intro hne
    have hjoin : joinSep rsep (verboseEntries DEFAULT_UNITS d prec lsep) ≠ "" := by
      match hentries : verboseEntries DEFAULT_UNITS d prec lsep with
      | [] => exact absurd hentries hne
      | x :: xs =>
        have hx : x ≠ "" := by
          have hmem : x ∈ verboseEntries DEFAULT_UNITS d prec lsep := by
            rw [hentries]; exact List.mem_cons_self _ _
          unfold verboseEntries at hmem
          rcases List.mem_map.mp hmem with ⟨e, _, hex⟩
          rw [← hex]
          exact addUnit_plain_ne_empty _ _ _
        exact joinSep_cons_ne_empty rsep x xs hx
    simp only [verbose]
    rw [hloop, if_neg hjoin, if_neg hneg, String.empty_append]

/-- Witness for C8 at the concrete magnitude of one day, one hour, one
minute and one second with the default options: verbose and elegant agree
on the entries and elegant joins them with commas, the word and, and a
trailing right separator. -/
theorem c8_amended_elegant_join_witness :
    verbose DEFAULT_UNITS (some 90061000) 7 " " " " =
      Except.ok "1 day 1 hour 1 minute 1 second" ∧
    elegant DEFAULT_UNITS (some 90061000) 7 " " " " =
      Except.ok "1 day, 1 hour, 1 minute and 1 second " := by
  have h := c8_amended_elegant_join 90061000 (by decide) 7 " " " "
  constructor
  · exact (h.2 (by decide)).trans (by decide)
  · exact h.1.trans (by decide)

/-- C9: for every non-negative magnitude, object returns the full modulo
cascade over the sixteen canonical units in descending order, one key per
unit with zero counts kept, and the sum of count times magnitude over all
sixteen entries plus the final sub-nanosecond remainder is the original
magnitude. -/
theorem c9_object_full_cascade :
    ∀ (d : Rat), 0 ≤ d →
      object (some d) = Except.ok (objectAux kTimeDurations d) ∧
      (objectAux kTimeDurations d).map Prod.fst =
        [TimeType.terayear, TimeType.gigayear, TimeType.megayear, TimeType.millennium,
         TimeType.century, TimeType.decade, TimeType.year, TimeType.month, TimeType.week,
         TimeType.day, TimeType.hour, TimeType.minute, TimeType.second,
         TimeType.millisecond, TimeType.microsecond, TimeType.nanosecond] ∧
      (objectAux kTimeDurations d).length = 16 ∧
      (List.zipWith (fun (e : TimeType × Int) (u : TimeType × Rat) => (e.2 : Rat) * u.2)
          (objectAux kTimeDurations d) kTimeDurations).sum +
        cascadeRem kTimeDurations d = d := by
  intro d hd
  have h := objectAux_invariant kTimeDurations d kTimeDurations_pos hd
  refine ⟨rfl, ?_, ?_, h.2⟩
  · rw [h.1]
    rfl
  · have hlen := congrArg List.length h.1
    simpa using hlen

/-- Witness for C9 at the concrete magnitude 123456789: the sixteen counts,
weighted by their magnitudes, plus the cascade remainder give back the
magnitude. -/
theorem c9_object_full_cascade_witness :
    (List.zipWith (fun (e : TimeType × Int) (u : TimeType × Rat) => (e.2 : Rat) * u.2)
        (objectAux kTimeDurations 123456789) kTimeDurations).sum +
      cascadeRem kTimeDurations 123456789 = 123456789 :=
  (c9_object_full_cascade 123456789 (by decide)).2.2.2

/-- C10: for every non-negative magnitude, colon renders the floored hour
count, the floored minute count of the hour remainder and the floored
second count of the minute remainder, each zero-padded to a width of at
least two (the hour field is never truncated), joined by colons. -/
theorem c10_colon_fields :
    ∀ (d : Rat), 0 ≤ d →
      colon (some d) =
        Except.ok (padWithZero (specColonHours d) ++ ":" ++
          padWithZero (specColonMinutes d) ++ ":" ++ padWithZero (specColonSeconds d)) ∧
      2 ≤ (padWithZero (specColonHours d)).length ∧
      2 ≤ (padWithZero (specColonMinutes d)).length ∧
      2 ≤ (padWithZero (specColonSeconds d)).length := by
  intro d hd
  have hH : (0 : Rat) < Time.Hour := by decide
  have hM : (0 : Rat) < Time.Minute := by decide
  have h1 : jsMod d Time.Hour = specColonHourRem d := by
    rw [jsMod_eq hd hH]
    rfl
  have hr1 : 0 ≤ specColonHourRem d := h1 ▸ jsMod_nonneg hd hH
  have h2 : jsMod (jsMod d Time.Hour) Time.Minute = specColonMinRem d := by
    rw [h1, jsMod_eq hr1 hM]
    rfl
  refine ⟨?_, padWithZero_length _, padWithZero_length _, padWithZero_length _⟩
  simp only [colon]
  rw [h2, h1]
  rfl

/-- Witness for C10 at 3661000 base-unit ticks, one hour, one minute and
one second: colon renders 01:01:01. -/
theorem c10_colon_fields_witness :
    colon (some 3661000) = Except.ok "01:01:01" :=
  (c10_colon_fields 3661000 (by decide)).1.trans (by decide)

end AezenDuration

